import Mathlib

/-!
Verification of the Janitor cluster API handlers: the hosts API
(`api/hosts-api.js`) and the user API (`api/user-api.js`).

The handlers are shallowly embedded as pure Lean functions.  External
library modules (`lib/hosts`, `lib/users`, `lib/machines`,
`lib/configurations`, `lib/db`) are modelled as parameters of the
handlers: the host store, the whitelist of allowed configuration files,
the result of `hosts.authenticate(request)`, and so on.  The JSON Patch
library `fast-json-patch` is embedded for single-segment pointers on
flat string-keyed documents (the shapes the user profile and the
configuration mapping have); operation forms the handlers never reach in
the proved theorems (root pointers, multi-segment descent, move/copy)
are mapped to an explicit `unmodeled` outcome.
-/

namespace Janitor

/-- A primitive JSON value, as stored in a flat document. -/
inductive JLit where
  | str (s : String)
  | num (n : Int)
  | bool (b : Bool)
  | null
deriving DecidableEq, Repr

/-- A flat JavaScript object: ordered key/value pairs (keys unique in use). -/
abbrev Doc := List (String × JLit)

/-- `obj[k]`: first binding of key `k`, if any. -/
def getKey (doc : Doc) (k : String) : Option JLit :=
  (doc.find? (fun kv => kv.1 = k)).map (fun kv => kv.2)

/-- `obj[k] = v`: update in place if the key exists, else append. -/
def setKey (doc : Doc) (k : String) (v : JLit) : Doc :=
  if doc.any (fun kv => kv.1 = k) then
    doc.map (fun kv => if kv.1 = k then (k, v) else kv)
  else
    doc ++ [(k, v)]

/-- `delete obj[k]`. -/
def removeKey (doc : Doc) (k : String) : Doc :=
  doc.filter (fun kv => kv.1 ≠ k)

/-- One JSON Patch operation object, as the handlers consume it:
the `op` and `path` fields are `none` when absent or not a string,
`value` is `none` when absent. -/
structure JOp where
  op : Option String
  path : Option String
  value : Option JLit
deriving DecidableEq, Repr

/-- `operation.path.replace(/^\//, '')`: strip one leading slash. -/
def stripSlash (p : String) : String :=
  match p.toList with
  | '/' :: rest => String.mk rest
  | _ => p

/-- JavaScript `s.split('/')` on the character list: always at least one
(possibly empty) segment, one more per separator. -/
def splitOnSlash : List Char → List (List Char)
  | [] => [[]]
  | c :: rest =>
    if c = '/' then [] :: splitOnSlash rest
    else
      match splitOnSlash rest with
      | s :: ss => (c :: s) :: ss
      | [] => [[c]]

/-- Outcome of applying one operation: success with the mutated document,
an exception (`JsonPatchError` or `TypeError`, both uncaught by the
handlers), or a form outside the embedding. -/
inductive OpResult where
  | ok (d : Doc)
  | thrown
  | unmodeled
deriving DecidableEq, Repr

/-- `fast-json-patch` `objOps[operation.op].call(operation, obj, key, doc)`
for a single-segment key on a flat document.  Keys that would modify the
prototype throw; `add`/`replace` without validation both assign the key;
`remove` deletes it; a failing `test` throws; an unknown or missing `op`
is an undefined member of `objOps`, so the `.call` throws a `TypeError`. -/
def applyAtKey (doc : Doc) (k : String) (op : JOp) : OpResult :=
  if k = "__proto__" ∨ k = "prototype" ∨ k = "constructor" then .thrown
  else
    match op.op with
    | some "add" =>
      match op.value with
      | some v => .ok (setKey doc k v)
      | none => .unmodeled
    | some "replace" =>
      match op.value with
      | some v => .ok (setKey doc k v)
      | none => .unmodeled
    | some "remove" => .ok (removeKey doc k)
    | some "test" => if getKey doc k = op.value then .ok doc else .thrown
    | some "move" => .unmodeled
    | some "copy" => .unmodeled
    | some "_get" => .unmodeled
    | some _ => .thrown
    | none => .thrown

/-- `fast-json-patch` `applyOperation` (mutating, no validation) on a flat
document.  A missing path falls back to `""` in the non-root branch, where
`keys = [""]` makes the accessed key the string `"undefined"`; a path that
is exactly `""` takes the root branch (unmodeled: it rebinds the internal
document rather than mutating the live one); otherwise the key walked to
is `keys[1]`, i.e. the segment after the first `/`; deeper descent is
outside the embedding. -/
def applyOperationJs (doc : Doc) (op : JOp) : OpResult :=
  match op.path with
  | none => applyAtKey doc "undefined" op
  | some "" => .unmodeled
  | some p =>
    match (splitOnSlash p.toList).drop 1 with
    | [] => applyAtKey doc "undefined" op
    | [k] => applyAtKey doc (String.mk k) op
    | _ :: _ :: _ => .unmodeled

/-- Outcome of `applyPatch` on a whole batch: full success, or an
exception thrown mid-batch (carrying the live document as already mutated
by the preceding operations), or a form outside the embedding. -/
inductive PatchApply where
  | ok (d : Doc)
  | thrown (d : Doc)
  | unmodeled
deriving DecidableEq, Repr

/-- `jsonpatch.applyPatch(document, patch)`: apply the operations in
order, mutating the document in place; an exception aborts the loop and
propagates, leaving the mutations already made. -/
def applyPatch (doc : Doc) : List JOp → PatchApply
  | [] => .ok doc
  | op :: rest =>
    match applyOperationJs doc op with
    | .ok d => applyPatch d rest
    | .thrown => .thrown doc
    | .unmodeled => .unmodeled

/-- The document obtained by a fully successful application, if any. -/
def applyOk (doc : Doc) : List JOp → Option Doc
  | [] => some doc
  | op :: rest =>
    match applyOperationJs doc op with
    | .ok d => applyOk d rest
    | .thrown => none
    | .unmodeled => none

/-- A JSON response payload: `{ error: msg }`, a document,
or `{ message: msg }`. -/
inductive Payload where
  | err (msg : String)
  | doc (d : Doc)
  | msg (s : String)
deriving DecidableEq, Repr

/-- An HTTP response: status code plus JSON payload. -/
structure Resp where
  status : Nat
  payload : Payload
deriving DecidableEq, Repr

/-- The parsed request body of a PATCH handler: `JSON.parse` threw, or it
produced an array of operation objects, a primitive, or a non-array
object. -/
inductive PBody where
  | parseError
  | ops (l : List JOp)
  | scalar (v : JLit)
  | objBody (d : Doc)
deriving DecidableEq, Repr

/-- What a PATCH handler did: the response it sent (none if an uncaught
exception aborted it), the live mapping afterwards, and whether
`db.save()` ran. -/
structure PatchResultR where
  response : Option Resp
  doc : Doc
  saved : Bool
deriving DecidableEq, Repr

/-- The tail both PATCH handlers share:
`jsonpatch.applyPatch(mapping, operations); db.save(); response.json(mapping)`.
Full success saves and answers 200 with the mutated mapping; an uncaught
exception leaves the mutations already made, does not save, and sends no
response. -/
def commitPatch (mapping : Doc) (l : List JOp) : Option PatchResultR :=
  match applyPatch mapping l with
  | .ok d => some ⟨some ⟨200, .doc d⟩, d, true⟩
  | .thrown d => some ⟨none, d, false⟩
  | .unmodeled => none

/-- `userAPI.patch` (PATCH /user) after authentication, on the parsed
body.  Only `JSON.parse` is inside the try: a parsed non-array reaches
`applyPatch`, where a number or boolean (or `""`, or an object without a
`length` key) has no usable `length` and the loop never runs, while a
nonempty string or `null` makes the library throw uncaught. -/
def userPatch (profile : Doc) (body : PBody) : Option PatchResultR :=
  match body with
  | .parseError => some ⟨some ⟨400, .err "Problems parsing JSON"⟩, profile, false⟩
  | .ops l => commitPatch profile l
  | .scalar (.num _) => some ⟨some ⟨200, .doc profile⟩, profile, true⟩
  | .scalar (.bool _) => some ⟨some ⟨200, .doc profile⟩, profile, true⟩
  | .scalar (.str s) =>
    if s = "" then some ⟨some ⟨200, .doc profile⟩, profile, true⟩
    else some ⟨none, profile, false⟩
  | .scalar .null => some ⟨none, profile, false⟩
  | .objBody d =>
    if getKey d "length" = none then some ⟨some ⟨200, .doc profile⟩, profile, true⟩
    else none

/-- `configurationsAPI.patch` (PATCH /user/configurations) after
authentication.  The try block covers `JSON.parse`, the
`operations.map(op => op.path.replace(/^\//, ''))`, and the whitelist
loop: a non-array body — a primitive, or an object, whose `map` property
is a parsed JSON value and never a function — or an operation without a
string path throws inside `map` and is caught as a parse error;
otherwise the first stripped path outside `configurations.allowed` is
rejected; only then does `applyPatch` run on the live mapping. -/
def configsPatch (allowed : List String) (configs : Doc) (body : PBody) :
    Option PatchResultR :=
  match body with
  | .parseError => some ⟨some ⟨400, .err "Problems parsing JSON"⟩, configs, false⟩
  | .scalar _ => some ⟨some ⟨400, .err "Problems parsing JSON"⟩, configs, false⟩
  | .objBody _ => some ⟨some ⟨400, .err "Problems parsing JSON"⟩, configs, false⟩
  | .ops l =>
    if l.any (fun op => op.path.isNone) then
      some ⟨some ⟨400, .err "Problems parsing JSON"⟩, configs, false⟩
    else
      let changed := l.filterMap (fun op => op.path.map stripSlash)
      match changed.find? (fun f => ¬ allowed.contains f) with
      | some f =>
        some ⟨some ⟨400, .err ("Updating " ++ f ++ " is forbidden")⟩, configs, false⟩
      | none => commitPatch configs l

/-- A host's OAuth2 client credential. -/
structure OAuth2Client where
  id : String
  secret : String
deriving DecidableEq, Repr

/-- A cluster host record as stored under `db.get('hosts')[hostname]`. -/
structure Host where
  properties : Doc
  oauth2client : OAuth2Client
deriving DecidableEq, Repr

/-- The persisted host store: hostname → host record. -/
abbrev HostStore := List (String × Host)

/-- `hosts.get(hostname)`. -/
def hostsGet (store : HostStore) (h : String) : Option Host :=
  (store.find? (fun kv => kv.1 = h)).map (fun kv => kv.2)

/-- An authenticated user session; `admin` is `users.isAdmin(user)`. -/
structure User where
  name : String
  admin : Bool
deriving DecidableEq, Repr

/-- `user && users.isAdmin(user)` on the possibly-absent `request.user`. -/
def isAdminOpt : Option User → Bool
  | none => false
  | some u => u.admin

/-- A request to GET /hosts/:hostname: the `hostname` URL parameter, the
result of `hosts.authenticate(request)` (the hostname the presented host
OAuth2 credential is valid for, if any), and `request.user`. -/
structure HostReq where
  hostname : String
  authHost : Option String
  user : Option User
deriving DecidableEq, Repr

/-- `authenticatedHostname && authenticatedHostname === hostname`. -/
def hostAuthMatches (authHost : Option String) (hostname : String) : Bool :=
  match authHost with
  | some a => a ≠ "" ∧ a = hostname
  | none => false

/-- `hostAPI.get` (GET /hosts/:hostname): host OAuth2 authentication
first (only when the credential's hostname equals the target, and only
if the record exists), then admin user authentication, else 404. -/
def hostGet (store : HostStore) (req : HostReq) : Resp :=
  if req.hostname = "" then ⟨400, .err "Invalid hostname"⟩
  else
    match (if hostAuthMatches req.authHost req.hostname
           then hostsGet store req.hostname else none) with
    | some host => ⟨200, .doc host.properties⟩
    | none =>
      if isAdminOpt req.user then
        match hostsGet store req.hostname with
        | some host => ⟨200, .doc host.properties⟩
        | none => ⟨404, .err "Host not found"⟩
      else ⟨404, .err "Host not found"⟩

/-- A JSON value a POST body may parse to. -/
inductive JVal where
  | lit (l : JLit)
  | obj (d : Doc)
deriving DecidableEq, Repr

/-- The body of a POST /hosts/:hostname request, as `JSON.parse` sees it
when the handler chooses to read it. -/
inductive PostBody where
  | parseError
  | parsed (v : JVal)
deriving DecidableEq, Repr

/-- The host properties `getHostProperties` hands to create/update:
either the query-parameter object verbatim, or the parsed JSON body. -/
inductive HProps where
  | ofQuery (q : Doc)
  | ofParsed (v : JVal)
deriving DecidableEq, Repr

/-- A request to POST /hosts/:hostname. -/
structure PostReq where
  hostname : String
  authHost : Option String
  user : Option User
  contentType : String
  query : Doc
  body : PostBody
deriving DecidableEq, Repr

/-- What the POST handler decides: an immediate response, or a call into
`hosts.update`/`hosts.create` with the chosen properties (their results
are external). -/
inductive PostOutcome where
  | respond (r : Resp)
  | update (hostname : String) (props : HProps)
  | create (hostname : String) (props : HProps)
deriving DecidableEq, Repr

/-- `getHostProperties`: when the Content-Type header is not exactly
`application/json`, the query parameters are used verbatim and the body
is never read; otherwise the body is buffered and `JSON.parse`d, a parse
failure answering 400. -/
def getHostProperties (req : PostReq) : Except Resp HProps :=
  if req.contentType ≠ "application/json" then .ok (.ofQuery req.query)
  else
    match req.body with
    | .parseError => .error ⟨400, .err "Problems parsing JSON"⟩
    | .parsed v => .ok (.ofParsed v)

/-- `hostAPI.post` (POST /hosts/:hostname): host OAuth2 authentication
(update only), then admin user authentication (update when the record
exists, else create), else 403. -/
def hostPost (store : HostStore) (req : PostReq) : PostOutcome :=
  if req.hostname = "" then .respond ⟨400, .err "Invalid hostname"⟩
  else if hostAuthMatches req.authHost req.hostname then
    match getHostProperties req with
    | .error r => .respond r
    | .ok p => .update req.hostname p
  else if isAdminOpt req.user then
    match hostsGet store req.hostname with
    | some _ =>
      match getHostProperties req with
      | .error r => .respond r
      | .ok p => .update req.hostname p
    | none =>
      match getHostProperties req with
      | .error r => .respond r
      | .ok p => .create req.hostname p
  else .respond ⟨403, .err "Unauthorized"⟩

/-- `hostAPI.get('/credentials')` (GET /hosts/:hostname/credentials):
non-admins and missing hosts both get the 404 "Host not found". -/
def hostCredsGet (store : HostStore) (user : Option User) (hostname : String) : Resp :=
  if ¬ isAdminOpt user then ⟨404, .err "Host not found"⟩
  else
    match hostsGet store hostname with
    | none => ⟨404, .err "Host not found"⟩
    | some host => ⟨200, .doc [("id", .str host.oauth2client.id),
                               ("secret", .str host.oauth2client.secret)]⟩

/-- What the credentials DELETE handler decides: an immediate response,
or a call into `hosts.resetOAuth2ClientSecret` (external). -/
inductive CredsDeleteOutcome where
  | respond (r : Resp)
  | resetSecret (hostname : String)
deriving DecidableEq, Repr

/-- `hostAPI.delete('/credentials')` (DELETE /hosts/:hostname/credentials):
non-admins and missing hosts both get the 404 "Host not found". -/
def hostCredsDelete (store : HostStore) (user : Option User) (hostname : String) :
    CredsDeleteOutcome :=
  if ¬ isAdminOpt user then .respond ⟨404, .err "Host not found"⟩
  else
    match hostsGet store hostname with
    | none => .respond ⟨404, .err "Host not found"⟩
    | some _ => .resetSecret hostname

/-- An OAuth2 delegation scope attached to a request:
`{ hostname, user, scopes }`. -/
structure Scope where
  hostname : String
  user : User
  scopes : List String
deriving DecidableEq, Repr

/-- A request to GET /hosts/:hostname/:container/:port. -/
structure PortReq where
  user : Option User
  oauth2scope : Option Scope
  hostname : String
  container : String
  port : String
deriving DecidableEq, Repr

/-- The identity the port handler acts as: `request.user` if present,
else the delegated user when the scope is bound to this hostname and
holds the `user` or `user:ports` capability. -/
def resolvePortUser (req : PortReq) : Option User :=
  match req.user with
  | some u => some u
  | none =>
    match req.oauth2scope with
    | some sc =>
      if sc.hostname = req.hostname ∧
         (sc.scopes.contains "user" ∨ sc.scopes.contains "user:ports") then
        some sc.user
      else none
    | none => none

/-- `/^[0-9a-f]+$/.test(container)`: nonempty and every character a
decimal digit or a lowercase `a`–`f`. -/
def jsHexTest (s : String) : Bool :=
  s.toList.length ≥ 1 ∧
    s.toList.all (fun c => ('0' ≤ c ∧ c ≤ '9') ∨ ('a' ≤ c ∧ c ≤ 'f'))

/-- What the port handler decides: an immediate response, or the call
into `machines.getMachineByContainer` (external) with the resolved user. -/
inductive PortOutcome where
  | respond (r : Resp)
  | lookup (asUser : User) (hostname container port : String)
deriving DecidableEq, Repr

/-- `hostAPI.get('/:container/:port')`: identity resolution, then 403 if
none, then container-id validation, then the container lookup. -/
def hostPortGet (req : PortReq) : PortOutcome :=
  match resolvePortUser req with
  | none => .respond ⟨403, .err "Unauthorized"⟩
  | some u =>
    if req.container.toList.length < 16 ∨ ¬ jsHexTest req.container then
      .respond ⟨400, .err "Invalid container ID"⟩
    else .lookup u req.hostname req.container req.port

/-- A container a user owns (identity abstract). -/
structure Container where
  id : String
deriving DecidableEq, Repr

/-- Modelled from the spec: `machines.deployConfigurationInAllContainers`
(in `lib/machines`, not part of the shown sources) writes the named
configuration file into every live container the user owns, tolerating
per-container write failures, and resolves to the count of containers
whose write succeeded; an empty container set yields 0 without error. -/
def deployConfigurationInAllContainers (containers : List Container)
    (writeOk : Container → Bool) : Nat :=
  (containers.filter writeOk).length

/-- The deployment message the PUT handler formats:
`'Successfully deployed to ' + count + ' container' + (count === 1 ? '' : 's')`. -/
def deployMessage (count : Nat) : String :=
  "Successfully deployed to " ++ toString count ++ " container" ++
    (if count = 1 then "" else "s")

/-- Settlement of the deployment promise. -/
inductive DeployResult where
  | ok (count : Nat)
  | failed
deriving DecidableEq, Repr

/-- `configurationAPI.put` (PUT /user/configurations/:file): 403 when
unauthenticated, else the pluralized success message from the count, or
a 500 when the deployment promise rejects. -/
def configurationPut (user : Option User) (result : DeployResult) : Resp :=
  match user with
  | none => ⟨403, .err "Unauthorized"⟩
  | some _ =>
    match result with
    | .ok count => ⟨200, .msg (deployMessage count)⟩
    | .failed => ⟨500, .err "Could not deploy configuration"⟩

/-- The top-level key of a JSON pointer as the spec words it: the first
path segment after the leading slash.  (Stated from the spec, to compare
with the handler's `stripSlash`, which keeps the whole remainder.) -/
def specTopLevelKey (p : String) : String :=
  String.mk ((stripSlash p).toList.takeWhile (fun c => c ≠ '/'))

/-! ### Helper lemmas about batch application -/

/-- A batch succeeds as a whole exactly when every operation in order
succeeds. -/
theorem applyPatch_ok_iff : ∀ (ops : List JOp) (m d : Doc),
    applyPatch m ops = .ok d ↔ applyOk m ops = some d
  | [], m, d => by simp [applyPatch, applyOk]
  | op :: rest, m, d => by
    simp only [applyPatch, applyOk]
    cases h : applyOperationJs m op with
    | ok d' => exact applyPatch_ok_iff rest d' d
    | thrown => simp
    | unmodeled => simp

/-- When a batch throws, the live document is exactly the result of the
successfully applied prefix, and the next operation is the one that
threw. -/
theorem applyPatch_thrown_decomp : ∀ (ops : List JOp) (m d : Doc),
    applyPatch m ops = .thrown d →
    ∃ pre op post, ops = pre ++ op :: post ∧ applyOk m pre = some d ∧
      applyOperationJs d op = .thrown
  | [], m, d => by simp [applyPatch]
  | op :: rest, m, d => by
    simp only [applyPatch]
    cases h : applyOperationJs m op with
    | ok d' =>
      intro hrest
      obtain ⟨pre, o, post, he, hok, hth⟩ := applyPatch_thrown_decomp rest d' d hrest
      exact ⟨op :: pre, o, post, by simp [he], by simp [applyOk, h, hok], hth⟩
    | thrown =>
      intro he
      injection he with h1
      exact ⟨[], op, rest, rfl, by simp [applyOk, h1], by rw [← h1]; exact h⟩
    | unmodeled => intro he; exact absurd he (by simp)

/-! ### C1 -/

/-- C1: for GET /hosts/:hostname and POST /hosts/:hostname, the host
OAuth2 branch accepts a credential only when the hostname it
authenticates equals the target hostname.  A credential valid for host
`a` presented against a different hostname `h` is never accepted via the
host branch: absent an admin user the GET answers 404 and the POST 403,
and with an admin user the request proceeds through the admin branch
instead. -/
theorem c1_host_credential_bound_to_hostname
    (store : HostStore) (h a : String) (u : Option User)
    (ct : String) (q : Doc) (b : PostBody)
    (hne : h ≠ "") (hmismatch : a ≠ h) (hnoadmin : isAdminOpt u = false) :
    hostGet store ⟨h, some a, u⟩ = ⟨404, .err "Host not found"⟩ ∧
    hostPost store ⟨h, some a, u, ct, q, b⟩ = .respond ⟨403, .err "Unauthorized"⟩ ∧
    (∀ adm host, adm.admin = true → hostsGet store h = some host →
      hostGet store ⟨h, some a, some adm⟩ = ⟨200, .doc host.properties⟩) := by
  have hm : hostAuthMatches (some a) h = false := by
    simp [hostAuthMatches, hmismatch]
  refine ⟨?_, ?_, ?_⟩
  · simp [hostGet, hne, hm, hnoadmin]
  · simp [hostPost, hne, hm, hnoadmin]
  · intro adm host hadm hget
    simp [hostGet, hne, hm, isAdminOpt, hadm, hget]

/-- Witness for C1 at a concrete store and request. -/
theorem c1_witness :
    hostGet [("hostA", ⟨[("port", .str "2376")], ⟨"1234", "123456"⟩⟩)]
        ⟨"hostB", some "hostA", none⟩ = ⟨404, .err "Host not found"⟩ ∧
    hostPost [("hostA", ⟨[("port", .str "2376")], ⟨"1234", "123456"⟩⟩)]
        ⟨"hostB", some "hostA", none, "text/plain", [], .parseError⟩ =
      .respond ⟨403, .err "Unauthorized"⟩ := by
  have h := c1_host_credential_bound_to_hostname
    [("hostA", ⟨[("port", .str "2376")], ⟨"1234", "123456"⟩⟩)]
    "hostB" "hostA" none "text/plain" [] .parseError
    (by decide) (by decide) (by decide)
  exact ⟨h.1, h.2.1⟩

/-! ### C5 -/

/-- C5: GET and DELETE /hosts/:hostname/credentials answer a non-admin
caller with the exact 404 "Host not found" response that a nonexistent
host produces, for any store and any hostname, so existence of the host
cannot be distinguished through these endpoints. -/
theorem c5_credentials_hide_existence
    (store store2 : HostStore) (u u2 : Option User) (h h2 : String)
    (hu : isAdminOpt u = false) (h2miss : hostsGet store2 h2 = none) :
    hostCredsGet store u h = ⟨404, .err "Host not found"⟩ ∧
    hostCredsGet store u h = hostCredsGet store2 u2 h2 ∧
    hostCredsDelete store u h = .respond ⟨404, .err "Host not found"⟩ ∧
    hostCredsDelete store u h = hostCredsDelete store2 u2 h2 := by
  have hg : hostCredsGet store u h = ⟨404, .err "Host not found"⟩ := by
    simp [hostCredsGet, hu]
  have hd : hostCredsDelete store u h = .respond ⟨404, .err "Host not found"⟩ := by
    simp [hostCredsDelete, hu]
  have hg2 : hostCredsGet store2 u2 h2 = ⟨404, .err "Host not found"⟩ := by
    cases hadm : isAdminOpt u2 with
    | false => simp [hostCredsGet, hadm]
    | true => simp [hostCredsGet, hadm, h2miss]
  have hd2 : hostCredsDelete store2 u2 h2 = .respond ⟨404, .err "Host not found"⟩ := by
    cases hadm : isAdminOpt u2 with
    | false => simp [hostCredsDelete, hadm]
    | true => simp [hostCredsDelete, hadm, h2miss]
  exact ⟨hg, by rw [hg, hg2], hd, by rw [hd, hd2]⟩

/-- Witness for C5: a non-admin user against an existing host gets the
same response as an admin against a nonexistent host. -/
theorem c5_witness :
    hostCredsGet [("host.name", ⟨[], ⟨"1234", "123456"⟩⟩)] (some ⟨"u", false⟩) "host.name" =
      ⟨404, .err "Host not found"⟩ ∧
    hostCredsGet [("host.name", ⟨[], ⟨"1234", "123456"⟩⟩)] (some ⟨"u", false⟩) "host.name" =
      hostCredsGet [] (some ⟨"root", true⟩) "missing.host" := by
  have h := c5_credentials_hide_existence
    [("host.name", ⟨[], ⟨"1234", "123456"⟩⟩)] [] (some ⟨"u", false⟩) (some ⟨"root", true⟩)
    "host.name" "missing.host" (by decide) (by decide)
  exact ⟨h.1, h.2.1⟩

/-! ### C6 -/

/-- C6: for an existing host `h`, GET /hosts/:hostname authenticated by
a host credential valid for `h` and the same request authenticated as an
admin user read the same stored record and return the identical 200
response with the host's properties. -/
theorem c6_host_credential_and_admin_read_same
    (store : HostStore) (h : String) (host : Host) (u : User)
    (hne : h ≠ "") (hadm : u.admin = true) (hget : hostsGet store h = some host) :
    hostGet store ⟨h, some h, none⟩ = ⟨200, .doc host.properties⟩ ∧
    hostGet store ⟨h, none, some u⟩ = ⟨200, .doc host.properties⟩ ∧
    hostGet store ⟨h, some h, none⟩ = hostGet store ⟨h, none, some u⟩ := by
  have hm : hostAuthMatches (some h) h = true := by
    simp [hostAuthMatches, hne]
  have h1 : hostGet store ⟨h, some h, none⟩ = ⟨200, .doc host.properties⟩ := by
    simp [hostGet, hne, hm, hget]
  have h2 : hostGet store ⟨h, none, some u⟩ = ⟨200, .doc host.properties⟩ := by
    simp [hostGet, hne, hostAuthMatches, isAdminOpt, hadm, hget]
  exact ⟨h1, h2, by rw [h1, h2]⟩

/-- Witness for C6 at a concrete store. -/
theorem c6_witness :
    hostGet [("host.name", ⟨[("port", .str "2376")], ⟨"1234", "123456"⟩⟩)]
        ⟨"host.name", some "host.name", none⟩ =
      hostGet [("host.name", ⟨[("port", .str "2376")], ⟨"1234", "123456"⟩⟩)]
        ⟨"host.name", none, some ⟨"root", true⟩⟩ :=
  (c6_host_credential_and_admin_read_same
    [("host.name", ⟨[("port", .str "2376")], ⟨"1234", "123456"⟩⟩)]
    "host.name" ⟨[("port", .str "2376")], ⟨"1234", "123456"⟩⟩ ⟨"root", true⟩
    (by decide) (by decide) (by decide)).2.2

/-! ### C7 -/

/-- C7: once a request to GET /hosts/:hostname/:container/:port is
authenticated, a container id shorter than 16 characters or containing a
character outside `[0-9a-f]` is answered with the 400 "Invalid container
ID" validation error; the outcome is not the `lookup` step, so no
container or machine lookup occurs (the machine store is not even an
input of the decision). -/
theorem c7_container_id_validated_before_lookup
    (req : PortReq) (u : User)
    (hauth : resolvePortUser req = some u)
    (hbad : req.container.toList.length < 16 ∨
      ∃ c ∈ req.container.toList, ¬ (('0' ≤ c ∧ c ≤ '9') ∨ ('a' ≤ c ∧ c ≤ 'f'))) :
    hostPortGet req = .respond ⟨400, .err "Invalid container ID"⟩ := by
  have hcond : req.container.toList.length < 16 ∨ ¬ jsHexTest req.container := by
    rcases hbad with hshort | ⟨c, hc, hnc⟩
    · exact Or.inl hshort
    · refine Or.inr ?_
      simp only [jsHexTest, Bool.decide_and, Bool.and_eq_true, decide_eq_true_eq,
        List.all_eq_true, not_and]
      intro _ hall
      exact absurd (by simpa using hall c hc) hnc
  unfold hostPortGet
  rw [hauth]
  exact if_pos hcond

/-- Witness for C7: an authenticated request with the short container id
"abc" is rejected with the validation error. -/
theorem c7_witness :
    hostPortGet ⟨some ⟨"root", true⟩, none, "host.name", "abc", "8080"⟩ =
      .respond ⟨400, .err "Invalid container ID"⟩ :=
  c7_container_id_validated_before_lookup
    ⟨some ⟨"root", true⟩, none, "host.name", "abc", "8080"⟩ ⟨"root", true⟩
    (by decide) (by decide)

/-! ### C2 -/

/-- The port handler answers 403 exactly when it resolves no user. -/
theorem hostPortGet_unauthorized_iff (req : PortReq) :
    hostPortGet req = .respond ⟨403, .err "Unauthorized"⟩ ↔
      resolvePortUser req = none := by
  unfold hostPortGet
  cases h : resolvePortUser req with
  | none => simp
  | some u =>
    simp only []
    constructor
    · intro hc
      by_cases hcnd : (req.container.toList.length < 16 ∨ ¬ jsHexTest req.container)
      · rw [if_pos hcnd] at hc
        exact absurd hc (by simp)
      · rw [if_neg hcnd] at hc
        exact absurd hc (by simp)
    · intro hc
      exact absurd hc (by simp)

/-- The handler resolves no user exactly when `request.user` is absent
and the OAuth2 scope, if any, is not bound to this hostname with the
`user` or `user:ports` capability. -/
theorem resolvePortUser_eq_none_iff (req : PortReq) :
    resolvePortUser req = none ↔
      (req.user = none ∧
        ∀ sc, req.oauth2scope = some sc →
          ¬ (sc.hostname = req.hostname ∧
             (sc.scopes.contains "user" = true ∨
              sc.scopes.contains "user:ports" = true))) := by
  unfold resolvePortUser
  cases hu : req.user with
  | some u => simp [hu]
  | none =>
    cases hs : req.oauth2scope with
    | none => simp [hs]
    | some sc =>
      by_cases hc : (sc.hostname = req.hostname ∧
          (sc.scopes.contains "user" = true ∨ sc.scopes.contains "user:ports" = true))
      · simp [hs, hc]
      · simp [hs, hc]

/-- C2 counterexample: a plain authenticated user who is not an admin
and presents no delegation scope is not denied — the handler proceeds to
the container lookup as that user — refuting the claim that only
AdminUser or a suitably delegated identity is allowed. -/
theorem c2_counterexample :
    (⟨"alice", false⟩ : User).admin = false ∧
    hostPortGet ⟨some ⟨"alice", false⟩, none, "host.name", "0123456789abcdef", "8080"⟩ =
      .lookup ⟨"alice", false⟩ "host.name" "0123456789abcdef" "8080" ∧
    hostPortGet ⟨some ⟨"alice", false⟩, none, "host.name", "0123456789abcdef", "8080"⟩ ≠
      .respond ⟨403, .err "Unauthorized"⟩ := by decide

/-- C2 amended: GET /hosts/:hostname/:container/:port denies with the
explicit 403 Unauthorized exactly when the request carries no
authenticated user at all and no OAuth2 scope bound to the request's
hostname whose capability set contains `user` or `user:ports`; any
authenticated user (admin or not), or such a delegated scope, passes the
access gate. -/
theorem c2_amended_port_access_gate (req : PortReq) :
    hostPortGet req = .respond ⟨403, .err "Unauthorized"⟩ ↔
      (req.user = none ∧
        ∀ sc, req.oauth2scope = some sc →
          ¬ (sc.hostname = req.hostname ∧
             (sc.scopes.contains "user" = true ∨
              sc.scopes.contains "user:ports" = true))) := by
  rw [hostPortGet_unauthorized_iff]
  exact resolvePortUser_eq_none_iff req

/-- Witness for C2: a scope bound to a different hostname resolves no
user and is denied with 403. -/
theorem c2_witness :
    hostPortGet ⟨none, some ⟨"other.host", ⟨"bob", false⟩, ["user:ports"]⟩,
        "host.name", "0123456789abcdef", "8080"⟩ =
      .respond ⟨403, .err "Unauthorized"⟩ :=
  (c2_amended_port_access_gate _).mpr ⟨rfl, by intro sc h; cases h; decide⟩

/-! ### C3 -/

/-- C3 counterexample: PATCH /user with the batch
`[add /b "1", test /a "z"]` against the profile `{a: "0"}` fails at the
second operation, yet the stored profile has changed to
`{a: "0", b: "1"}` — the first operation was applied in place, refuting
all-or-nothing application. -/
theorem c3_counterexample :
    userPatch [("a", .str "0")]
      (.ops [⟨some "add", some "/b", some (.str "1")⟩,
             ⟨some "test", some "/a", some (.str "z")⟩]) =
      some ⟨none, [("a", .str "0"), ("b", .str "1")], false⟩ ∧
    ([("a", .str "0"), ("b", .str "1")] : Doc) ≠ [("a", .str "0")] := by decide

/-- When every operation has a string path whose stripped form is
whitelisted, the configurations handler passes validation and proceeds
to application. -/
theorem configsPatch_passes_validation
    (allowed : List String) (m : Doc) (ops : List JOp)
    (hpaths : ∀ op ∈ ops, op.path.isSome = true)
    (hallow : ∀ op ∈ ops, ∀ p, op.path = some p →
      allowed.contains (stripSlash p) = true) :
    configsPatch allowed m (.ops ops) = commitPatch m ops := by
  have h1 : ops.any (fun op => op.path.isNone) = false := by
    rw [List.any_eq_false]
    intro op hop
    have h := hpaths op hop
    simp [Option.isNone_eq_false_iff, Option.isSome_iff_ne_none.mp h]
  have h2 : (ops.filterMap (fun op => op.path.map stripSlash)).find?
      (fun f => ¬ allowed.contains f) = none := by
    rw [List.find?_eq_none]
    intro f hf
    rw [List.mem_filterMap] at hf
    obtain ⟨op, hop, hmap⟩ := hf
    obtain ⟨p, hp⟩ := Option.isSome_iff_exists.mp (hpaths op hop)
    rw [hp] at hmap
    simp only [Option.map_some', Option.some.injEq] at hmap
    have hcont := hallow op hop p hp
    rw [hmap] at hcont
    simpa using hcont
  simp only [configsPatch, h1, Bool.false_eq_true, if_false, h2]

/-- C3 amended: both PATCH /user and PATCH /user/configurations apply
the operations sequentially and in place to the live mapping, not to a
working copy.  When every operation succeeds, the mutated mapping is
persisted and returned; when an operation fails mid-batch, no response
is sent and nothing is persisted, but the live mapping retains exactly
the effects of the successfully applied prefix.  (For the
configurations endpoint the batch is assumed to pass the whitelist.) -/
theorem c3_amended_in_place_not_atomic
    (m d : Doc) (ops : List JOp) (allowed : List String)
    (hpaths : ∀ op ∈ ops, op.path.isSome = true)
    (hallow : ∀ op ∈ ops, ∀ p, op.path = some p →
      allowed.contains (stripSlash p) = true) :
    (applyOk m ops = some d →
      userPatch m (.ops ops) = some ⟨some ⟨200, .doc d⟩, d, true⟩ ∧
      configsPatch allowed m (.ops ops) = some ⟨some ⟨200, .doc d⟩, d, true⟩) ∧
    (applyPatch m ops = .thrown d →
      userPatch m (.ops ops) = some ⟨none, d, false⟩ ∧
      configsPatch allowed m (.ops ops) = some ⟨none, d, false⟩ ∧
      ∃ pre op post, ops = pre ++ op :: post ∧ applyOk m pre = some d ∧
        applyOperationJs d op = .thrown) := by
  have hpass := configsPatch_passes_validation allowed m ops hpaths hallow
  constructor
  · intro hok
    have hap : applyPatch m ops = .ok d := (applyPatch_ok_iff ops m d).mpr hok
    constructor
    · simp [userPatch, commitPatch, hap]
    · rw [hpass]; simp [commitPatch, hap]
  · intro hth
    refine ⟨?_, ?_, applyPatch_thrown_decomp ops m d hth⟩
    · simp [userPatch, commitPatch, hth]
    · rw [hpass]; simp [commitPatch, hth]

/-- Witness for C3 at the concrete failing batch, on both endpoints. -/
theorem c3_witness :
    userPatch [("a", .str "0")]
      (.ops [⟨some "add", some "/b", some (.str "1")⟩,
             ⟨some "test", some "/a", some (.str "z")⟩]) =
      some ⟨none, [("a", .str "0"), ("b", .str "1")], false⟩ ∧
    configsPatch ["a", "b"] [("a", .str "0")]
      (.ops [⟨some "add", some "/b", some (.str "1")⟩,
             ⟨some "test", some "/a", some (.str "z")⟩]) =
      some ⟨none, [("a", .str "0"), ("b", .str "1")], false⟩ := by
  have h := (c3_amended_in_place_not_atomic
    [("a", .str "0")] [("a", .str "0"), ("b", .str "1")]
    [⟨some "add", some "/b", some (.str "1")⟩,
     ⟨some "test", some "/a", some (.str "z")⟩]
    ["a", "b"] (by decide) (by decide)).2 (by decide)
  exact ⟨h.1, h.2.1⟩

/-! ### C4 -/

/-- C4 counterexample: the operation path `/.gitconfig/x` has the
top-level key `.gitconfig`, which is on the whitelist, yet the batch is
rejected: the handler compares the whole path with one leading slash
stripped (`.gitconfig/x`) against the whitelist, not the top-level key,
refuting the claimed "if and only if". -/
theorem c4_counterexample :
    specTopLevelKey "/.gitconfig/x" = ".gitconfig" ∧
    ([".gitconfig"] : List String).contains (specTopLevelKey "/.gitconfig/x") = true ∧
    configsPatch [".gitconfig"] [(".gitconfig", .str "")]
      (.ops [⟨some "add", some "/.gitconfig/x", some (.str "v")⟩]) =
      some ⟨some ⟨400, .err "Updating .gitconfig/x is forbidden"⟩,
            [(".gitconfig", .str "")], false⟩ := by decide

/-- C4 amended: for a PATCH /user/configurations batch whose operations
all carry a string path, the key validated is each path with one leading
slash stripped (the entire remainder, which equals the top-level key
only for single-segment paths).  The batch is rejected — stored
configurations unchanged, nothing saved, 400 naming the first offending
stripped path — if and only if some stripped path is outside the
whitelist; otherwise validation passes and the handler proceeds to
application. -/
theorem c4_amended_whitelist_checks_stripped_path
    (allowed : List String) (configs : Doc) (ops : List JOp)
    (hpaths : ∀ op ∈ ops, op.path.isSome = true) :
    ((ops.filterMap (fun op => op.path.map stripSlash)).find?
        (fun f => ¬ allowed.contains f) = none →
      configsPatch allowed configs (.ops ops) = commitPatch configs ops) ∧
    (∀ f, (ops.filterMap (fun op => op.path.map stripSlash)).find?
        (fun g => ¬ allowed.contains g) = some f →
      configsPatch allowed configs (.ops ops) =
        some ⟨some ⟨400, .err ("Updating " ++ f ++ " is forbidden")⟩, configs, false⟩) ∧
    ((∃ f ∈ ops.filterMap (fun op => op.path.map stripSlash),
        allowed.contains f = false) ↔
      (∃ f, configsPatch allowed configs (.ops ops) =
        some ⟨some ⟨400, .err ("Updating " ++ f ++ " is forbidden")⟩, configs, false⟩)) := by
  have h1 : ops.any (fun op => op.path.isNone) = false := by
    rw [List.any_eq_false]
    intro op hop
    have h := hpaths op hop
    simp [Option.isNone_eq_false_iff, Option.isSome_iff_ne_none.mp h]
  have hpassnone : ∀ (hfind : (ops.filterMap (fun op => op.path.map stripSlash)).find?
      (fun f => ¬ allowed.contains f) = none),
      configsPatch allowed configs (.ops ops) = commitPatch configs ops := by
    intro hfind
    simp only [configsPatch, h1, Bool.false_eq_true, if_false, hfind]
  have hreject : ∀ f, (ops.filterMap (fun op => op.path.map stripSlash)).find?
      (fun g => ¬ allowed.contains g) = some f →
      configsPatch allowed configs (.ops ops) =
        some ⟨some ⟨400, .err ("Updating " ++ f ++ " is forbidden")⟩, configs, false⟩ := by
    intro f hfind
    simp only [configsPatch, h1, Bool.false_eq_true, if_false, hfind]
  refine ⟨hpassnone, hreject, ?_, ?_⟩
  · intro ⟨f, hmem, hout⟩
    have hsome : ((ops.filterMap (fun op => op.path.map stripSlash)).find?
        (fun g => ¬ allowed.contains g)).isSome := by
      rw [List.find?_isSome]
      exact ⟨f, hmem, by simpa using hout⟩
    obtain ⟨g, hg⟩ := Option.isSome_iff_exists.mp hsome
    exact ⟨g, hreject g hg⟩
  · intro ⟨f, hf⟩
    cases hfind : (ops.filterMap (fun op => op.path.map stripSlash)).find?
        (fun g => ¬ allowed.contains g) with
    | some g =>
      refine ⟨g, List.mem_of_find?_eq_some hfind, ?_⟩
      have := List.find?_some hfind
      simpa using this
    | none =>
      exfalso
      rw [hpassnone hfind] at hf
      unfold commitPatch at hf
      cases h : applyPatch configs ops with
      | ok d => rw [h] at hf; simp at hf
      | thrown d => rw [h] at hf; simp at hf
      | unmodeled => rw [h] at hf; simp at hf

/-- Witness for C4: a single-segment path outside the whitelist is
rejected with the 400 naming it, configurations untouched. -/
theorem c4_witness :
    configsPatch [".gitconfig"] [(".gitconfig", .str "")]
      (.ops [⟨some "add", some "/evil", some (.str "v")⟩]) =
      some ⟨some ⟨400, .err "Updating evil is forbidden"⟩,
            [(".gitconfig", .str "")], false⟩ :=
  (c4_amended_whitelist_checks_stripped_path [".gitconfig"] [(".gitconfig", .str "")]
    [⟨some "add", some "/evil", some (.str "v")⟩] (by decide)).2.1 "evil" (by decide)

/-! ### C9 -/

/-- C9 counterexample: PATCH /user with a body that parses to the number
`42` — not an array of operations — is not answered with the 400
"Problems parsing JSON": `applyPatch` iterates over an undefined
`length`, doing nothing, and the handler saves and answers 200 with the
unchanged profile. -/
theorem c9_counterexample :
    userPatch [("name", .str "n")] (.scalar (.num 42)) =
      some ⟨some ⟨200, .doc [("name", .str "n")]⟩, [("name", .str "n")], true⟩ ∧
    some (⟨200, .doc [("name", .str "n")]⟩ : Resp) ≠
      some (⟨400, .err "Problems parsing JSON"⟩ : Resp) := by decide

/-- C9 amended: an unparseable body yields the 400 "Problems parsing
JSON" on both PATCH endpoints, leaving the mapping unchanged and
unsaved.  On PATCH /user/configurations a body parsing to any non-array
value — a primitive or a non-array object — or to an array containing an
operation without a usable string path, is also caught as the same parse
error with no effect.  On PATCH /user, however, only `JSON.parse` is
guarded: a body parsing to a number or boolean reaches patch
application, acts as an empty batch, and is answered 200 with the
unchanged (but re-saved) profile. -/
theorem c9_amended_parse_validation
    (profile configs : Doc) (allowed : List String) (v : JLit) (d : Doc)
    (ops : List JOp) (n : Int) (b : Bool) :
    userPatch profile .parseError =
      some ⟨some ⟨400, .err "Problems parsing JSON"⟩, profile, false⟩ ∧
    configsPatch allowed configs .parseError =
      some ⟨some ⟨400, .err "Problems parsing JSON"⟩, configs, false⟩ ∧
    configsPatch allowed configs (.scalar v) =
      some ⟨some ⟨400, .err "Problems parsing JSON"⟩, configs, false⟩ ∧
    configsPatch allowed configs (.objBody d) =
      some ⟨some ⟨400, .err "Problems parsing JSON"⟩, configs, false⟩ ∧
    ((∃ op ∈ ops, op.path = none) →
      configsPatch allowed configs (.ops ops) =
        some ⟨some ⟨400, .err "Problems parsing JSON"⟩, configs, false⟩) ∧
    userPatch profile (.scalar (.num n)) =
      some ⟨some ⟨200, .doc profile⟩, profile, true⟩ ∧
    userPatch profile (.scalar (.bool b)) =
      some ⟨some ⟨200, .doc profile⟩, profile, true⟩ := by
  refine ⟨rfl, rfl, rfl, rfl, ?_, rfl, rfl⟩
  intro ⟨op, hop, hpath⟩
  have hany : ops.any (fun op => op.path.isNone) = true :=
    List.any_eq_true.mpr ⟨op, hop, by simp [hpath]⟩
  simp only [configsPatch, hany, if_true]

/-- Witness for C9: a batch containing an operation without a path is
caught as a parse error on the configurations endpoint. -/
theorem c9_witness :
    configsPatch [".gitconfig"] [(".gitconfig", .str "")]
      (.ops [⟨some "add", none, some (.str "v")⟩]) =
      some ⟨some ⟨400, .err "Problems parsing JSON"⟩, [(".gitconfig", .str "")], false⟩ :=
  (c9_amended_parse_validation [] [(".gitconfig", .str "")] [".gitconfig"] .null []
    [⟨some "add", none, some (.str "v")⟩] 0 true).2.2.2.2.1
    ⟨⟨some "add", none, some (.str "v")⟩, by simp, rfl⟩

/-! ### C10 -/

/-- C10: for POST /hosts/:hostname, when the Content-Type header is not
exactly `application/json` the request body is never read — the outcome
is unchanged under any replacement of the body — and the properties
handed to create/update are the query parameters verbatim; the body is
parsed as JSON (and a parse error is only possible) when Content-Type is
exactly `application/json`. -/
theorem c10_non_json_post_uses_query_verbatim
    (store : HostStore) (req : PostReq) (b' : PostBody)
    (hct : req.contentType ≠ "application/json") :
    hostPost store { req with body := b' } = hostPost store req ∧
    (∀ h p, hostPost store req = .update h p → p = .ofQuery req.query) ∧
    (∀ h p, hostPost store req = .create h p → p = .ofQuery req.query) ∧
    (∀ req2 : PostReq,
      hostPost store req2 = .respond ⟨400, .err "Problems parsing JSON"⟩ →
      req2.contentType = "application/json") := by
  have hprops : ∀ b0, getHostProperties { req with body := b0 } = .ok (.ofQuery req.query) := by
    intro b0
    simp [getHostProperties, hct]
  have hself : getHostProperties req = .ok (.ofQuery req.query) := by
    simp [getHostProperties, hct]
  have hchar : ∀ req2 : PostReq, req2.contentType ≠ "application/json" →
      hostPost store req2 = .respond ⟨400, .err "Invalid hostname"⟩ ∨
      hostPost store req2 = .respond ⟨403, .err "Unauthorized"⟩ ∨
      hostPost store req2 = .update req2.hostname (.ofQuery req2.query) ∨
      hostPost store req2 = .create req2.hostname (.ofQuery req2.query) := by
    intro req2 hct2
    have hok : getHostProperties req2 = .ok (.ofQuery req2.query) := by
      simp [getHostProperties, hct2]
    unfold hostPost
    rw [hok]
    by_cases hh : req2.hostname = ""
    · rw [if_pos hh]; exact Or.inl rfl
    · rw [if_neg hh]
      by_cases hm : hostAuthMatches req2.authHost req2.hostname = true
      · rw [if_pos hm]; exact Or.inr (Or.inr (Or.inl rfl))
      · rw [if_neg hm]
        by_cases ha : isAdminOpt req2.user = true
        · rw [if_pos ha]
          cases hostsGet store req2.hostname with
          | some host => exact Or.inr (Or.inr (Or.inl rfl))
          | none => exact Or.inr (Or.inr (Or.inr rfl))
        · rw [if_neg ha]; exact Or.inr (Or.inl rfl)
  refine ⟨?_, ?_, ?_, ?_⟩
  · unfold hostPost
    simp only [hprops b', hself]
  · intro h p hout
    rcases hchar req hct with hd | hd | hd | hd <;> rw [hd] at hout
    · exact absurd hout (by simp)
    · exact absurd hout (by simp)
    · injection hout with h1 h2; exact h2.symm
    · exact absurd hout (by simp)
  · intro h p hout
    rcases hchar req hct with hd | hd | hd | hd <;> rw [hd] at hout
    · exact absurd hout (by simp)
    · exact absurd hout (by simp)
    · exact absurd hout (by simp)
    · injection hout with h1 h2; exact h2.symm
  · intro req2 hout
    by_cases hct2 : req2.contentType = "application/json"
    · exact hct2
    · exfalso
      rcases hchar req2 hct2 with hd | hd | hd | hd <;> rw [hd] at hout
      · exact absurd hout (by decide)
      · exact absurd hout (by decide)
      · exact absurd hout (by simp)
      · exact absurd hout (by simp)

/-- Witness for C10: a form-encoded POST yields an update with the query
parameters as properties, whatever the body holds. -/
theorem c10_witness :
    hostPost [("host.name", ⟨[("port", .str "2376")], ⟨"1234", "123456"⟩⟩)]
      ⟨"host.name", some "host.name", none,
       "application/x-www-form-urlencoded", [("port", .str "2377")], .parseError⟩ =
    hostPost [("host.name", ⟨[("port", .str "2376")], ⟨"1234", "123456"⟩⟩)]
      ⟨"host.name", some "host.name", none,
       "application/x-www-form-urlencoded", [("port", .str "2377")],
       .parsed (.obj [("port", .str "9999")])⟩ :=
  (c10_non_json_post_uses_query_verbatim
    [("host.name", ⟨[("port", .str "2376")], ⟨"1234", "123456"⟩⟩)]
    ⟨"host.name", some "host.name", none,
     "application/x-www-form-urlencoded", [("port", .str "2377")],
     .parsed (.obj [("port", .str "9999")])⟩ .parseError (by decide)).1

/-! ### C8 -/

/-- C8: a successful PUT /user/configurations/:file deployment answers
200 with the count of containers whose write succeeded — exactly the
containers passing the per-container write, the failures being excluded
rather than surfaced — and the message uses the singular "container"
exactly when the count is 1 and the plural "containers" otherwise,
including a count of 0 for a user with no live containers. -/
theorem c8_deploy_count_and_pluralization
    (u : User) (cs : List Container) (f : Container → Bool) :
    configurationPut (some u) (.ok (deployConfigurationInAllContainers cs f)) =
      ⟨200, .msg (deployMessage (deployConfigurationInAllContainers cs f))⟩ ∧
    deployConfigurationInAllContainers cs f +
      (cs.filter (fun c => !(f c))).length = cs.length ∧
    deployConfigurationInAllContainers [] f = 0 ∧
    (deployConfigurationInAllContainers cs f = 1 →
      deployMessage (deployConfigurationInAllContainers cs f) =
        "Successfully deployed to 1 container") ∧
    (deployConfigurationInAllContainers cs f ≠ 1 →
      deployMessage (deployConfigurationInAllContainers cs f) =
        "Successfully deployed to " ++
          toString (deployConfigurationInAllContainers cs f) ++ " containers") := by
  refine ⟨rfl, ?_, rfl, ?_, ?_⟩
  · exact (List.length_eq_length_filter_add f).symm
  · intro h
    rw [h]
    decide
  · intro h
    unfold deployMessage
    rw [if_neg h, String.append_assoc]
    congr 1

/-- Witness for C8: one succeeding container gives the singular message,
an empty container set gives count 0 and the plural message. -/
theorem c8_witness :
    deployMessage (deployConfigurationInAllContainers [⟨"c1"⟩] (fun _ => true)) =
      "Successfully deployed to 1 container" ∧
    deployMessage (deployConfigurationInAllContainers [] (fun _ => true)) =
      "Successfully deployed to " ++
        toString (deployConfigurationInAllContainers [] (fun _ => true)) ++
        " containers" := by
  refine ⟨?_, ?_⟩
  · exact (c8_deploy_count_and_pluralization ⟨"root", true⟩ [⟨"c1"⟩]
      (fun _ => true)).2.2.2.1 (by decide)
  · exact (c8_deploy_count_and_pluralization ⟨"root", true⟩ []
      (fun _ => true)).2.2.2.2 (by decide)

end Janitor
